import Mathlib

/-!
Verification of the kanga-cdaudio core against its specification.

The definitions below are a shallow embedding of `kanga/cdaudio/cd.py`,
`kanga/cdaudio/drive.py` and `kanga/cdaudio/linux.py`:
pure functions become Lean functions, machine integers become `Nat`/`Int`
with explicit masking where overflow matters, and fallible operations
return `Option` or an explicit outcome type.  `SHA-1` and the modified
base64 encoding (Python's `hashlib.sha1` / `base64.b64encode` with
`altchars=b"._"`) are embedded directly from their standards, since the
source calls them as library primitives.
-/

/-! ## Constants from `cd.py` -/

def SECONDS_PER_MINUTE : Int := 60

def FRAMES_PER_SECOND : Int := 75

def FRAMES_PER_MINUTE : Int := FRAMES_PER_SECOND * SECONDS_PER_MINUTE

def GAP_FRAMES : Int := 150

def TRACK_MAX : Nat := 99

def INDEX_MAX : Nat := 99

def LEADOUT_TRACK : Nat := 0xAA

/-! ## Track and disc metadata model (`cd.py`) -/

/-- Embeds `TrackType`: the type of track on a CD. -/
inductive TrackType where
  | audio
  | data
  | leadout
deriving DecidableEq, Repr

/-- Embeds the `TrackFlags` 4-bit mask as a plain `Nat` value. -/
def QUAD_CHANNEL : Nat := 0b1000

def DATA_TRACK : Nat := 0b0100

def COPY_PERMITTED : Nat := 0b0010

def PREEMPHASIS : Nat := 0b0001

def INCREMENTAL : Nat := 0b0001

/-- Embeds the `TrackInformation` named tuple.  `flags` is the 4-bit
`TrackFlags` mask; `start_frame` is a Python `int` (a `c_int` on the Linux
backend), embedded as `Int`. -/
structure TrackInformation where
  track : Nat
  track_type : TrackType
  flags : Nat
  start_frame : Int
deriving DecidableEq, Repr

/-- Embeds the `DiscInformation` named tuple. -/
structure DiscInformation where
  first_track : Nat
  last_track : Nat
  track_information : List TrackInformation
deriving DecidableEq, Repr

/-! ## Python-style uppercase hex formatting

`f"{x:02X}"` / `f"{x:08X}"`: uppercase hex digits, zero-filled to the
requested minimum width; for a negative integer the sign is printed first
and counts toward the width. -/

def hexTable : List Char := "0123456789ABCDEF".toList

def hexDigit (n : Nat) : Char := hexTable.getD n '0'

def hexCharsAux : Nat → Nat → List Char
  | 0, _ => []
  | fuel+1, n =>
    if n < 16 then [hexDigit n]
    else hexCharsAux fuel (n / 16) ++ [hexDigit (n % 16)]

/-- Uppercase hex digits of `n`, no padding (`"0"` for zero). -/
def hexChars (n : Nat) : List Char := hexCharsAux (n + 1) n

def padZero (w : Nat) (l : List Char) : List Char :=
  List.replicate (w - l.length) '0' ++ l

/-- Python `f"{n:0wX}"` for a natural number `n`. -/
def pyHexNat (w : Nat) (n : Nat) : List Char := padZero w (hexChars n)

/-- Python `f"{x:0wX}"` for an integer `x` (sign counts toward width `w`). -/
def pyHexInt (w : Nat) (x : Int) : List Char :=
  if x < 0 then '-' :: padZero (w - 1) (hexChars x.natAbs)
  else padZero w (hexChars x.natAbs)

/-! ## SHA-1 (the `hashlib.sha1` primitive used by `musicbrainz_id`)

Messages and digests are lists of byte values (`Nat` below 256); all word
arithmetic is masked to 32 bits explicitly. -/

def MASK32 : Nat := 0xFFFFFFFF

def rotl32 (s x : Nat) : Nat := ((x <<< s) ||| (x >>> (32 - s))) &&& MASK32

/-- Big-endian byte serialization of `n` in exactly `k` bytes. -/
def beBytes : Nat → Nat → List Nat
  | 0, _ => []
  | k+1, n => beBytes k (n / 256) ++ [n % 256]

/-- Groups of four bytes, big-endian, into 32-bit words. -/
def wordsOfBytes : List Nat → List Nat
  | b0 :: b1 :: b2 :: b3 :: rest =>
    (((b0 * 256 + b1) * 256 + b2) * 256 + b3) :: wordsOfBytes rest
  | _ => []

/-- Splits a byte list into 64-byte blocks; the first argument is
recursion fuel (any value at least the list length works). -/
def chunksOf64 : Nat → List Nat → List (List Nat)
  | 0, _ => []
  | _+1, [] => []
  | fuel+1, b :: rest =>
    (b :: rest).take 64 :: chunksOf64 fuel ((b :: rest).drop 64)

/-- Number of zero bytes between the `0x80` marker and the 8-byte length
field, chosen so the padded message length is a multiple of 64. -/
def sha1PadLen (len : Nat) : Nat := (119 - len % 64) % 64

def sha1Pad (msg : List Nat) : List Nat :=
  msg ++ 0x80 :: List.replicate (sha1PadLen msg.length) 0
      ++ beBytes 8 (msg.length * 8)

/-- Extends the 16 message words to 80 schedule words; the first argument
counts the remaining extension steps. -/
def sha1ExtendAux : Nat → List Nat → List Nat
  | 0, ws => ws
  | k+1, ws =>
    sha1ExtendAux k
      (ws ++ [rotl32 1 ((ws.getD (ws.length - 3) 0) ^^^
                        (ws.getD (ws.length - 8) 0) ^^^
                        (ws.getD (ws.length - 14) 0) ^^^
                        (ws.getD (ws.length - 16) 0))])

def sha1Schedule (ws : List Nat) : List Nat := sha1ExtendAux 64 ws

structure SHA1State where
  h0 : Nat
  h1 : Nat
  h2 : Nat
  h3 : Nat
  h4 : Nat
deriving DecidableEq, Repr

def sha1Init : SHA1State :=
  SHA1State.mk 0x67452301 0xEFCDAB89 0x98BADCFE 0x10325476 0xC3D2E1F0

def sha1F (i b c d : Nat) : Nat :=
  if i < 20 then (b &&& c) ||| ((b ^^^ MASK32) &&& d)
  else if i < 40 then b ^^^ c ^^^ d
  else if i < 60 then (b &&& c) ||| (b &&& d) ||| (c &&& d)
  else b ^^^ c ^^^ d

def sha1K (i : Nat) : Nat :=
  if i < 20 then 0x5A827999
  else if i < 40 then 0x6ED9EBA1
  else if i < 60 then 0x8F1BBCDC
  else 0xCA62C1D6

def sha1RoundsAux : Nat → List Nat → SHA1State → SHA1State
  | _, [], s => s
  | i, w :: ws, s =>
    sha1RoundsAux (i + 1) ws
      (SHA1State.mk
        ((rotl32 5 s.h0 + sha1F i s.h1 s.h2 s.h3 + s.h4 + sha1K i + w) &&& MASK32)
        s.h0 (rotl32 30 s.h1) s.h2 s.h3)

def sha1Block (s : SHA1State) (block : List Nat) : SHA1State :=
  let t := sha1RoundsAux 0 (sha1Schedule (wordsOfBytes block)) s
  SHA1State.mk
    ((s.h0 + t.h0) &&& MASK32) ((s.h1 + t.h1) &&& MASK32)
    ((s.h2 + t.h2) &&& MASK32) ((s.h3 + t.h3) &&& MASK32)
    ((s.h4 + t.h4) &&& MASK32)

def sha1StateBytes (s : SHA1State) : List Nat :=
  beBytes 4 s.h0 ++ beBytes 4 s.h1 ++ beBytes 4 s.h2 ++
  beBytes 4 s.h3 ++ beBytes 4 s.h4

/-- The 20-byte SHA-1 digest of a byte list. -/
def sha1 (msg : List Nat) : List Nat :=
  sha1StateBytes
    ((chunksOf64 (sha1Pad msg).length (sha1Pad msg)).foldl sha1Block sha1Init)

/-! ## Base64 with the MusicBrainz substitutions

Python's `b64encode(digest, altchars=b"._").replace(b"=", b"-")`: the
standard alphabet with index 62 mapped to `'.'`, index 63 to `'_'`, and
the `'='` padding characters replaced by `'-'`. -/

def mbAlphabet : List Char :=
  "ABCDEFGHIJKLMNOPQRSTUVWXYZabcdefghijklmnopqrstuvwxyz0123456789._".toList

def mbChar (i : Nat) : Char := mbAlphabet.getD (i % 64) 'A'

def mbEncode : List Nat → List Char
  | [] => []
  | [b1] => [mbChar (b1 >>> 2), mbChar ((b1 &&& 3) <<< 4), '-', '-']
  | [b1, b2] =>
    [mbChar (b1 >>> 2), mbChar (((b1 &&& 3) <<< 4) ||| (b2 >>> 4)),
     mbChar ((b2 &&& 15) <<< 2), '-']
  | b1 :: b2 :: b3 :: rest =>
    mbChar (b1 >>> 2) :: mbChar (((b1 &&& 3) <<< 4) ||| (b2 >>> 4)) ::
    mbChar (((b2 &&& 15) <<< 2) ||| (b3 >>> 6)) :: mbChar (b3 &&& 63) ::
    mbEncode rest

/-! ## `DiscInformation.musicbrainz_id` (`cd.py`, lines 57-83)

The incremental `hasher.update` calls are embedded as the concatenation of
the hashed byte strings; the `assert` contract (and the index error on an
empty track sequence) is embedded as `none`. -/

def isAudioTrack (t : TrackInformation) : Bool :=
  decide (t.track_type = TrackType.audio)

def zeros8 : List Char := "00000000".toList

/-- Contribution of one track to the hashed string: audio tracks append
their gap-adjusted start offset, other tracks contribute nothing. -/
def audioOffsetChars (t : TrackInformation) : List Char :=
  if t.track_type = TrackType.audio then pyHexInt 8 (t.start_frame + GAP_FRAMES)
  else []

/-- The ASCII string fed to SHA-1: header fields, one offset per audio
track in disc order, and `"00000000"` for each remaining slot up to 99. -/
def mbHashInput (d : DiscInformation) (lo : TrackInformation) : List Char :=
  pyHexNat 2 d.first_track ++ pyHexNat 2 d.last_track ++
  pyHexInt 8 (lo.start_frame + GAP_FRAMES) ++
  (d.track_information.map audioOffsetChars).flatten ++
  (List.replicate (99 - d.track_information.countP isAudioTrack) zeros8).flatten

def asciiBytes (l : List Char) : List Nat := l.map Char.toNat

/-- Embeds `DiscInformation.musicbrainz_id`.  Returns `none` exactly when
the Python property fails: empty track sequence (`IndexError` on `[-1]`)
or a last entry that is not the leadout (`assert` failure). -/
def musicbrainz_id (d : DiscInformation) : Option String :=
  match d.track_information.getLast? with
  | none => none
  | some lo =>
    if lo.track_type = TrackType.leadout then
      some (String.mk (mbEncode (sha1 (asciiBytes (mbHashInput d lo)))))
    else none

/-! ## `MSF` (`cd.py`, lines 85-121) -/

structure MSF where
  minute : Int
  second : Int
  frame : Int
deriving DecidableEq, Repr

/-- Embeds the `MSF.lba` property. -/
def MSF.lba (m : MSF) : Int :=
  m.minute * FRAMES_PER_MINUTE + m.second * FRAMES_PER_SECOND + m.frame

/-- Embeds the `MSF.is_valid` property. -/
def MSF.is_valid (m : MSF) : Bool :=
  decide (0 ≤ m.minute ∧
          (0 ≤ m.second ∧ m.second < SECONDS_PER_MINUTE) ∧
          (0 ≤ m.frame ∧ m.frame < FRAMES_PER_SECOND))

/-- Embeds `MSF.from_lba`; Python `divmod` is floor division, `Int.fdiv`
and `Int.fmod`. -/
def MSF.from_lba (frame : Int) : MSF :=
  MSF.mk (Int.fdiv frame FRAMES_PER_MINUTE)
         (Int.fdiv (Int.fmod frame FRAMES_PER_MINUTE) FRAMES_PER_SECOND)
         (Int.fmod (Int.fmod frame FRAMES_PER_MINUTE) FRAMES_PER_SECOND)

/-! ## Drive status (`drive.py` / `linux.py`) -/

/-- Embeds the `DriveStatus` enumeration. -/
inductive DriveStatus where
  | ok
  | unknown
  | no_disc
  | tray_open
  | not_ready
deriving DecidableEq, Repr

/-- Status codes returned by the `CDROM_DRIVE_STATUS` ioctl. -/
def CDS_NO_INFO : Int := 0

def CDS_NO_DISC : Int := 1

def CDS_TRAY_OPEN : Int := 2

def CDS_DRIVE_NOT_READY : Int := 3

def CDS_DISC_OK : Int := 4

/-- Embeds the status mapping of `LinuxCDROMDrive._get_status` (the ioctl
result is a non-negative `int`; a negative result raises before the
mapping is reached, so the mapping itself is total over the codes). -/
def mapDriveStatus (status : Int) : DriveStatus :=
  if status = CDS_NO_DISC then DriveStatus.no_disc
  else if status = CDS_TRAY_OPEN then DriveStatus.tray_open
  else if status = CDS_DRIVE_NOT_READY then DriveStatus.not_ready
  else if status = CDS_DISC_OK then DriveStatus.ok
  else DriveStatus.unknown

/-! ## TOC entry decoding (`linux.py`, `get_track_information`)

The ioctl fills `cdte_adr_ctrl` (a packed byte: address type in the low
nibble, control flags in the high nibble) and the union address field
(requested in logical-block form).  The decode of those returned fields is
pure; `decodeTocEntry` embeds it.  The Python method then constructs the
result with keyword `type=`, which the `TrackInformation` named tuple does
not accept (its field is `track_type`); `decodeTocEntry` embeds the
intended construction. -/

def CDROM_LBA : Nat := 0x01

def CDROM_MSF_FORMAT : Nat := 0x02

def CDROM_DATA_TRACK : Nat := 0x04

def decodeTocEntry (track : Nat) (cdte_adr_ctrl : Nat) (lba : Int) :
    TrackInformation :=
  let cdte_ctrl := (cdte_adr_ctrl &&& 0xf0) >>> 4
  if track = LEADOUT_TRACK then
    TrackInformation.mk track TrackType.leadout 0 lba
  else if cdte_ctrl &&& CDROM_DATA_TRACK ≠ 0 then
    TrackInformation.mk track TrackType.data (cdte_ctrl &&& 0x01) lba
  else
    TrackInformation.mk track TrackType.audio cdte_ctrl lba

/-! ## Disc information assembly (`linux.py`, `get_disc_information`)

The device's responses are abstracted as two functions giving, per queried
track number, the returned packed control/address byte and the returned
logical-block address.  The method reads the TOC header, queries each
track from `first_track` to `last_track` in ascending order, then the
leadout sentinel, and assembles the `DiscInformation`.  (The Python method
as written also reads `tochdr.cdth_trk0.value` where the field access has
already produced a plain `int`; the assembly below embeds the intended
composition.) -/

def get_disc_information_model (firstT lastT : Nat)
    (ctrlOf : Nat → Nat) (lbaOf : Nat → Int) : DiscInformation :=
  DiscInformation.mk firstT lastT
    (((List.range' firstT (lastT + 1 - firstT)).map
        (fun t => decodeTocEntry t (ctrlOf t) (lbaOf t))) ++
     [decodeTocEntry LEADOUT_TRACK (ctrlOf LEADOUT_TRACK) (lbaOf LEADOUT_TRACK)])

/-! ## `seek` on the Linux backend (`linux.py`, lines 136-149)

The method validates `position.is_valid` (raising `ValueError`,
the invalid-argument condition) and otherwise raises
`NotImplementedError` without ever issuing the `CDROMSEEK` ioctl (the
ioctl call is commented out in the source).  The outcome type has a
constructor for an issued device call so that its absence is statable. -/

inductive SeekOutcome where
  | invalidArgument
  | notSupported
  | issuedIoctl
deriving DecidableEq, Repr

def linuxSeek (position : MSF) : SeekOutcome :=
  if position.is_valid = false then SeekOutcome.invalidArgument
  else SeekOutcome.notSupported

/-! ## Helper lemmas: hex formatting -/

/-- Numeric value of an uppercase hex digit character. -/
def hexDigitVal (c : Char) : Nat := if c ≤ '9' then c.toNat - 48 else c.toNat - 55

/-- Value of a list of hex digit characters, most significant first. -/
def hexVal (l : List Char) : Nat :=
  l.foldl (fun a c => a * 16 + hexDigitVal c) 0

theorem hexVal_foldl (a : Nat) (l : List Char) :
    l.foldl (fun a c => a * 16 + hexDigitVal c) a =
      a * 16 ^ l.length + hexVal l := by
  induction l generalizing a with
  | nil => simp [hexVal]
  | cons c l ih =>
    have h0 : hexVal (c :: l) = hexDigitVal c * 16 ^ l.length + hexVal l := by
      show List.foldl _ 0 (c :: l) = _
      simp only [List.foldl_cons]
      rw [ih (0 * 16 + hexDigitVal c)]
      ring
    simp only [List.foldl_cons, List.length_cons]
    rw [ih (a * 16 + hexDigitVal c), h0]
    ring

theorem hexVal_append (l1 l2 : List Char) :
    hexVal (l1 ++ l2) = hexVal l1 * 16 ^ l2.length + hexVal l2 := by
  unfold hexVal
  rw [List.foldl_append]
  rw [hexVal_foldl (List.foldl (fun a c => a * 16 + hexDigitVal c) 0 l1) l2]
  rfl

theorem hexVal_replicate_zero (k : Nat) : hexVal (List.replicate k '0') = 0 := by
  induction k with
  | zero => rfl
  | succ k ih =>
    unfold hexVal at ih ⊢
    simp only [List.replicate_succ, List.foldl_cons]
    simpa using ih

theorem hexVal_padZero (w : Nat) (l : List Char) :
    hexVal (padZero w l) = hexVal l := by
  unfold padZero
  rw [hexVal_append, hexVal_replicate_zero]
  ring

theorem hexDigitVal_hexDigit : ∀ n < 16, hexDigitVal (hexDigit n) = n := by decide

theorem hexVal_hexCharsAux :
    ∀ fuel n, n < fuel → hexVal (hexCharsAux fuel n) = n := by
  intro fuel
  induction fuel with
  | zero => omega
  | succ fuel ih =>
    intro n hn
    unfold hexCharsAux
    by_cases h16 : n < 16
    · simp only [h16, if_true]
      unfold hexVal
      simp only [List.foldl_cons, List.foldl_nil]
      simpa using hexDigitVal_hexDigit n h16
    · simp only [h16, if_false]
      rw [hexVal_append]
      have hdiv : n / 16 < fuel := by
        have : n / 16 < n := Nat.div_lt_self (by omega) (by omega)
        omega
      rw [ih (n / 16) hdiv]
      have hv : hexVal [hexDigit (n % 16)] = n % 16 := by
        unfold hexVal
        simp only [List.foldl_cons, List.foldl_nil]
        simpa using hexDigitVal_hexDigit (n % 16) (Nat.mod_lt n (by omega))
      rw [hv]
      simp only [List.length_cons, List.length_nil]
      omega

theorem hexVal_hexChars (n : Nat) : hexVal (hexChars n) = n :=
  hexVal_hexCharsAux (n + 1) n (Nat.lt_succ_self n)

theorem hexVal_pyHexNat (w n : Nat) : hexVal (pyHexNat w n) = n := by
  unfold pyHexNat
  rw [hexVal_padZero, hexVal_hexChars]

theorem hexDigit_mem (n : Nat) : hexDigit n ∈ hexTable := by
  by_cases h : n < hexTable.length
  · rw [hexDigit, List.getD_eq_getElem _ _ h]
    exact List.getElem_mem h
  · rw [hexDigit, List.getD_eq_default _ _ (Nat.le_of_not_lt h)]
    decide

theorem mem_hexCharsAux :
    ∀ fuel n c, c ∈ hexCharsAux fuel n → c ∈ hexTable := by
  intro fuel
  induction fuel with
  | zero => intro n c h; simp [hexCharsAux] at h
  | succ fuel ih =>
    intro n c h
    unfold hexCharsAux at h
    by_cases h16 : n < 16
    · simp only [h16, if_true, List.mem_singleton] at h
      exact h ▸ hexDigit_mem n
    · simp only [h16, if_false, List.mem_append, List.mem_singleton] at h
      rcases h with h | h
      · exact ih (n / 16) c h
      · exact h ▸ hexDigit_mem (n % 16)

theorem dash_not_mem_pyHexPad (w n : Nat) : '-' ∉ padZero w (hexChars n) := by
  intro hmem
  rw [padZero, List.mem_append] at hmem
  rcases hmem with h | h
  · exact absurd (List.eq_of_mem_replicate h) (by decide)
  · exact absurd (mem_hexCharsAux (n + 1) n '-' h) (by decide)

theorem pyHexInt_inj (w : Nat) (x y : Int) (h : pyHexInt w x = pyHexInt w y) :
    x = y := by
  unfold pyHexInt at h
  by_cases hx : x < 0 <;> by_cases hy : y < 0 <;>
      simp only [hx, hy, if_true, if_false] at h
  · have h2 : padZero (w - 1) (hexChars x.natAbs) =
        padZero (w - 1) (hexChars y.natAbs) := by
      simpa using h
    have := congrArg hexVal h2
    rw [hexVal_padZero, hexVal_padZero, hexVal_hexChars, hexVal_hexChars] at this
    omega
  · exact absurd (h ▸ List.mem_cons_self '-' _) (dash_not_mem_pyHexPad w y.natAbs)
  · exact absurd (h.symm ▸ List.mem_cons_self '-' _)
      (dash_not_mem_pyHexPad w x.natAbs)
  · have := congrArg hexVal h
    rw [hexVal_padZero, hexVal_padZero, hexVal_hexChars, hexVal_hexChars] at this
    omega

theorem append_mid_ne {A B X Y : List Char} (h : X ≠ Y) :
    A ++ X ++ B ≠ A ++ Y ++ B := by
  intro he
  exact h (List.append_cancel_left (List.append_cancel_right he))

/-! ## Helper lemmas: digest and encoding shape -/

/-- Character class `[A-Za-z0-9._-]` from the spec's output contract. -/
def isIdChar (c : Char) : Bool :=
  ('A' ≤ c && c ≤ 'Z') || ('a' ≤ c && c ≤ 'z') || ('0' ≤ c && c ≤ '9') ||
  c == '.' || c == '_' || c == '-'

theorem beBytes_length : ∀ k n, (beBytes k n).length = k := by
  intro k
  induction k with
  | zero => intro n; rfl
  | succ k ih => intro n; simp [beBytes, ih]

theorem sha1_length (msg : List Nat) : (sha1 msg).length = 20 := by
  unfold sha1 sha1StateBytes
  simp [beBytes_length]

theorem mbChar_valid (i : Nat) :
    isIdChar (mbChar i) = true ∧ mbChar i ≠ '=' := by
  have hall : ∀ j < 64,
      isIdChar (mbAlphabet.getD j 'A') = true ∧ mbAlphabet.getD j 'A' ≠ '=' := by
    decide
  exact hall (i % 64) (Nat.mod_lt _ (by omega))

theorem mbEncode_length (bs : List Nat) :
    (mbEncode bs).length = 4 * ((bs.length + 2) / 3) := by
  induction bs using mbEncode.induct with
  | case1 => simp [mbEncode]
  | case2 b1 => simp [mbEncode]
  | case3 b1 b2 => simp [mbEncode]
  | case4 b1 b2 b3 rest ih => simp [mbEncode, ih]; omega

theorem mbEncode_mem (bs : List Nat) (c : Char) (hc : c ∈ mbEncode bs) :
    isIdChar c = true ∧ c ≠ '=' := by
  induction bs using mbEncode.induct with
  | case1 => simp [mbEncode] at hc
  | case2 b1 =>
    simp only [mbEncode, List.mem_cons, List.mem_singleton] at hc
    rcases hc with h | h | h | h | h
    · exact h ▸ mbChar_valid _
    · exact h ▸ mbChar_valid _
    · subst h; exact ⟨by decide, by decide⟩
    · subst h; exact ⟨by decide, by decide⟩
    · simp at h
  | case3 b1 b2 =>
    simp only [mbEncode, List.mem_cons, List.mem_singleton] at hc
    rcases hc with h | h | h | h | h
    · exact h ▸ mbChar_valid _
    · exact h ▸ mbChar_valid _
    · exact h ▸ mbChar_valid _
    · subst h; exact ⟨by decide, by decide⟩
    · simp at h
  | case4 b1 b2 b3 rest ih =>
    simp only [mbEncode, List.mem_cons] at hc
    rcases hc with h | h | h | h | h
    · exact h ▸ mbChar_valid _
    · exact h ▸ mbChar_valid _
    · exact h ▸ mbChar_valid _
    · exact h ▸ mbChar_valid _
    · exact ih h

/-! ## Helper lemmas: the hashed string -/

theorem flatten_audio_offsets (l : List TrackInformation) :
    (l.map audioOffsetChars).flatten =
      ((l.filter isAudioTrack).map
        (fun t => pyHexInt 8 (t.start_frame + GAP_FRAMES))).flatten := by
  induction l with
  | nil => rfl
  | cons t l ih =>
    by_cases h : t.track_type = TrackType.audio
    · simp [List.filter_cons, audioOffsetChars, isAudioTrack, h, ih]
    · simp [List.filter_cons, audioOffsetChars, isAudioTrack, h, ih]

/-! ## Claim C5 -/

/-- C5: For every MSF position satisfying `is_valid` (frame in `[0,75)`,
second in `[0,60)`, minute non-negative), `from_lba (to_lba msf) = msf`,
where `to_lba` computes `minute*4500 + second*75 + frame` and `from_lba`
decomposes by floor division and remainder by 4500 then 75; in particular
`to_lba (0,0,0) = 0`, `to_lba (1,0,0) = 4500` and `to_lba (0,1,0) = 75`. -/
theorem msf_lba_roundtrip (m : MSF) (h : m.is_valid = true) :
    MSF.from_lba m.lba = m ∧
    (MSF.mk 0 0 0).lba = 0 ∧ (MSF.mk 1 0 0).lba = 4500 ∧
    (MSF.mk 0 1 0).lba = 75 := by
  refine ⟨?_, by decide, by decide, by decide⟩
  rw [MSF.is_valid, decide_eq_true_eq] at h
  obtain ⟨h1, ⟨h2a, h2b⟩, h3a, h3b⟩ := h
  rw [SECONDS_PER_MINUTE] at h2b
  rw [FRAMES_PER_SECOND] at h3b
  cases m with
  | mk minute second frame =>
    simp only [MSF.lba, MSF.from_lba, FRAMES_PER_MINUTE, FRAMES_PER_SECOND,
      SECONDS_PER_MINUTE] at *
    norm_num
    have hlba : minute * 4500 + second * 75 + frame =
        minute * 4500 + (second * 75 + frame) := by ring
    rw [Int.fdiv_eq_ediv _ (by omega), Int.fmod_eq_emod _ (by omega),
        Int.fdiv_eq_ediv _ (by omega), Int.fmod_eq_emod _ (by omega)]
    refine ⟨?_, ?_, ?_⟩ <;> omega

/-- C5 witness at the concrete valid position 3 minutes, 2 seconds,
70 frames. -/
theorem msf_lba_roundtrip_witness :
    (MSF.mk 3 2 70).is_valid = true ∧
    MSF.from_lba (MSF.mk 3 2 70).lba = MSF.mk 3 2 70 :=
  ⟨by decide, (msf_lba_roundtrip (MSF.mk 3 2 70) (by decide)).1⟩

/-! ## Claim C10 -/

/-- C10: For every non-negative integer frame count `f`,
`MSF.from_lba f` satisfies `is_valid` and `(MSF.from_lba f).lba = f`:
`from_lba` is a right inverse of the LBA conversion on non-negative LBAs
and always produces an in-range minute/second/frame triple. -/
theorem msf_from_lba_right_inverse (f : Int) (h : 0 ≤ f) :
    (MSF.from_lba f).is_valid = true ∧ (MSF.from_lba f).lba = f := by
  simp only [MSF.from_lba, MSF.lba, MSF.is_valid, decide_eq_true_eq,
    FRAMES_PER_MINUTE, FRAMES_PER_SECOND, SECONDS_PER_MINUTE]
  norm_num
  rw [Int.fdiv_eq_ediv _ (by omega), Int.fmod_eq_emod _ (by omega),
      Int.fdiv_eq_ediv _ (by omega), Int.fmod_eq_emod _ (by omega)]
  constructor
  · refine ⟨by omega, ⟨?_, ?_⟩, ?_, ?_⟩ <;> omega
  · omega

/-- C10 witness at the concrete frame count 7501. -/
theorem msf_from_lba_right_inverse_witness :
    (0 : Int) ≤ 7501 ∧ (MSF.from_lba 7501).is_valid = true ∧
    (MSF.from_lba 7501).lba = 7501 :=
  ⟨by decide, msf_from_lba_right_inverse 7501 (by decide)⟩

/-! ## Claim C8 -/

/-- C8: The backend status mapping sends the no-disc, tray-open,
not-ready and disc-ok ioctl codes to the corresponding `DriveStatus`
values, and any other code to `DriveStatus.unknown` rather than failing.
(The mapping lives in `LinuxCDROMDrive._get_status`; the public
`get_status` entry point never reaches it, see RESULTS.)  -/
theorem drive_status_mapping (s : Int)
    (h1 : s ≠ CDS_NO_DISC) (h2 : s ≠ CDS_TRAY_OPEN)
    (h3 : s ≠ CDS_DRIVE_NOT_READY) (h4 : s ≠ CDS_DISC_OK) :
    mapDriveStatus CDS_NO_DISC = DriveStatus.no_disc ∧
    mapDriveStatus CDS_TRAY_OPEN = DriveStatus.tray_open ∧
    mapDriveStatus CDS_DRIVE_NOT_READY = DriveStatus.not_ready ∧
    mapDriveStatus CDS_DISC_OK = DriveStatus.ok ∧
    mapDriveStatus s = DriveStatus.unknown := by
  refine ⟨by decide, by decide, by decide, by decide, ?_⟩
  simp [mapDriveStatus, h1, h2, h3, h4]

/-- C8 witness at the unrecognized code 100 (`CDS_AUDIO`, a disc-status
code the drive-status mapping does not recognize). -/
theorem drive_status_mapping_witness :
    (100 : Int) ≠ CDS_NO_DISC ∧ mapDriveStatus 100 = DriveStatus.unknown :=
  ⟨by decide,
   (drive_status_mapping 100 (by decide) (by decide) (by decide)
      (by decide)).2.2.2.2⟩

/-! ## Claim C9 -/

/-- C9: `seek` validates `position.is_valid` before issuing any device
call, reporting the invalid-argument condition for an invalid position;
for every valid position the Linux backend reports the distinct
"not supported on this platform" condition, and it never issues the
`CDROMSEEK` control call. -/
theorem linux_seek_behavior (p : MSF) :
    (p.is_valid = false → linuxSeek p = SeekOutcome.invalidArgument) ∧
    (p.is_valid = true → linuxSeek p = SeekOutcome.notSupported) ∧
    linuxSeek p ≠ SeekOutcome.issuedIoctl := by
  refine ⟨fun h => by simp [linuxSeek, h], fun h => by simp [linuxSeek, h], ?_⟩
  unfold linuxSeek
  split <;> simp

/-- C9 witness: an invalid position (frame 75) is rejected and a valid
position (0,0,0) reports the unsupported condition. -/
theorem linux_seek_behavior_witness :
    ((MSF.mk 0 0 75).is_valid = false ∧
      linuxSeek (MSF.mk 0 0 75) = SeekOutcome.invalidArgument) ∧
    ((MSF.mk 0 0 0).is_valid = true ∧
      linuxSeek (MSF.mk 0 0 0) = SeekOutcome.notSupported) :=
  ⟨⟨by decide, (linux_seek_behavior (MSF.mk 0 0 75)).1 (by decide)⟩,
   ⟨by decide, (linux_seek_behavior (MSF.mk 0 0 0)).2.1 (by decide)⟩⟩

/-! ## Claim C4 -/

/-- C4: The disc-identifier computation fails (the Python `IndexError` or
`assert` contract violation, embedded as `none`) exactly when the track
sequence is empty or its last entry is not the leadout; on well-formed
input it does not fail. -/
theorem musicbrainz_id_contract (d : DiscInformation) :
    musicbrainz_id d = none ↔
      (d.track_information = [] ∨
       ∃ lo, d.track_information.getLast? = some lo ∧
             lo.track_type ≠ TrackType.leadout) := by
  cases h : d.track_information.getLast? with
  | none =>
    rw [List.getLast?_eq_none_iff] at h
    simp [musicbrainz_id, h]
  | some lo =>
    have hne : d.track_information ≠ [] := by
      intro hnil
      rw [hnil] at h
      simp at h
    by_cases ht : lo.track_type = TrackType.leadout
    · simp only [musicbrainz_id, h, ht, if_true]
      refine iff_of_false (by simp) ?_
      rintro (hnil | ⟨lo', hlo', hty⟩)
      · exact hne hnil
      · injection hlo' with hh
        exact hty (hh ▸ ht)
    · simp only [musicbrainz_id, h, ht, if_false]
      exact iff_of_true trivial (Or.inr ⟨lo, rfl, ht⟩)

/-- C4 witness: an empty track sequence fails; a track sequence whose
last entry is an audio track fails; a well-formed disc succeeds. -/
theorem musicbrainz_id_contract_witness :
    musicbrainz_id (DiscInformation.mk 1 1 []) = none ∧
    musicbrainz_id (DiscInformation.mk 1 1
      [TrackInformation.mk 1 TrackType.audio 0 0]) = none ∧
    musicbrainz_id (DiscInformation.mk 1 1
      [TrackInformation.mk 1 TrackType.audio 0 0,
       TrackInformation.mk LEADOUT_TRACK TrackType.leadout 0 95360]) ≠
      none := by
  refine ⟨(musicbrainz_id_contract _).mpr (Or.inl rfl),
          (musicbrainz_id_contract _).mpr
            (Or.inr ⟨TrackInformation.mk 1 TrackType.audio 0 0, rfl,
              by decide⟩), ?_⟩
  intro hnone
  rcases (musicbrainz_id_contract _).mp hnone with h | ⟨lo, hlo, hty⟩
  · exact absurd h (by decide)
  · cases hlo
    exact hty rfl

/-! ## Claim C6 -/

/-- Default element used with `List.getD` over track lists. -/
def defaultTrack : TrackInformation :=
  TrackInformation.mk 0 TrackType.audio 0 0

set_option maxRecDepth 4096 in
/-- C6: decoding a returned TOC entry takes the high nibble of the packed
control/address byte as the 4-bit control field; the leadout sentinel
(0xAA) decodes to `TrackType.leadout` with flags 0; otherwise a set
data-track bit (0b0100) gives `TrackType.data` with flags masked to only
the incremental-recording bit regardless of the other bits; otherwise
`TrackType.audio` with the full 4-bit control field; the logical-block
address is returned verbatim as `start_frame`.  (The Python method
computes exactly this decode but then crashes constructing the named
tuple, see RESULTS; the decode itself is verified here.) -/
theorem toc_entry_decode (track cdte_adr_ctrl : Nat) (lba : Int)
    (hb : cdte_adr_ctrl < 256) :
    ((cdte_adr_ctrl &&& 0xf0) >>> 4 = cdte_adr_ctrl / 16) ∧
    (track = LEADOUT_TRACK →
      decodeTocEntry track cdte_adr_ctrl lba =
        TrackInformation.mk track TrackType.leadout 0 lba) ∧
    (track ≠ LEADOUT_TRACK → Nat.testBit (cdte_adr_ctrl / 16) 2 = true →
      decodeTocEntry track cdte_adr_ctrl lba =
        TrackInformation.mk track TrackType.data ((cdte_adr_ctrl / 16) % 2)
          lba) ∧
    (track ≠ LEADOUT_TRACK → Nat.testBit (cdte_adr_ctrl / 16) 2 = false →
      decodeTocEntry track cdte_adr_ctrl lba =
        TrackInformation.mk track TrackType.audio (cdte_adr_ctrl / 16) lba) := by
  have hnib : ∀ x, x < 256 → (x &&& 0xf0) >>> 4 = x / 16 := by decide
  have hbit1 : ∀ c, c < 16 →
      (Nat.testBit c 2 = true → c &&& CDROM_DATA_TRACK ≠ 0) := by decide
  have hbit0 : ∀ c, c < 16 →
      (Nat.testBit c 2 = false → c &&& CDROM_DATA_TRACK = 0) := by decide
  have hmask : ∀ c, c < 16 → c &&& 0x01 = c % 2 := by decide
  have hc16 : cdte_adr_ctrl / 16 < 16 := by omega
  have hctrl := hnib cdte_adr_ctrl hb
  refine ⟨hctrl, ?_, ?_, ?_⟩
  · intro hlead
    simp [decodeTocEntry, hlead]
  · intro hne hbit
    have hd := hbit1 _ hc16 hbit
    simp only [decodeTocEntry]
    rw [hctrl, if_neg hne, if_pos hd, hmask _ hc16]
  · intro hne hbit
    have hd := hbit0 _ hc16 hbit
    simp only [decodeTocEntry]
    rw [hctrl, if_neg hne, if_neg (not_not_intro hd)]

/-- C6 witness: track 1 with packed byte 0xD0 (control nibble 0b1101,
data bit set) decodes to a data track with only the incremental bit
kept; the leadout sentinel decodes to the leadout type with flags 0. -/
theorem toc_entry_decode_witness :
    (0xD0 : Nat) < 256 ∧
    decodeTocEntry 1 0xD0 300 =
      TrackInformation.mk 1 TrackType.data 1 300 ∧
    decodeTocEntry LEADOUT_TRACK 0xD0 300 =
      TrackInformation.mk LEADOUT_TRACK TrackType.leadout 0 300 :=
  ⟨by decide,
   (toc_entry_decode 1 0xD0 300 (by decide)).2.2.1 (by decide) (by decide),
   (toc_entry_decode LEADOUT_TRACK 0xD0 300 (by decide)).2.1 rfl⟩

/-! ## Claim C7 -/

/-- C7: the disc information assembled from a TOC-header reply
`(firstT, lastT)` and per-track TOC-entry replies contains exactly
`lastT - firstT + 2` entries: one per track number from `firstT` to
`lastT` in ascending order, followed by the leadout entry last, whose
type is `TrackType.leadout`.  (The Python method crashes reading the
header fields, see RESULTS; the assembly itself is verified here.) -/
theorem disc_information_shape (firstT lastT : Nat)
    (ctrlOf : Nat → Nat) (lbaOf : Nat → Int) (hle : firstT ≤ lastT) :
    (get_disc_information_model firstT lastT ctrlOf
        lbaOf).track_information.length = lastT - firstT + 2 ∧
    (get_disc_information_model firstT lastT ctrlOf
        lbaOf).track_information.map TrackInformation.track =
      List.range' firstT (lastT + 1 - firstT) ++ [LEADOUT_TRACK] ∧
    ((get_disc_information_model firstT lastT ctrlOf
        lbaOf).track_information.getLast?.map TrackInformation.track_type) =
      some TrackType.leadout := by
  have htrk : ∀ t c l, (decodeTocEntry t c l).track = t := by
    intro t c l
    simp only [decodeTocEntry]
    split
    · rfl
    · split <;> rfl
  refine ⟨?_, ?_, ?_⟩
  · simp only [get_disc_information_model, List.length_append,
      List.length_map, List.length_range', List.length_cons,
      List.length_nil]
    omega
  · simp only [get_disc_information_model, List.map_append, List.map_map,
      List.map_cons, List.map_nil]
    have h1 : List.map
        (TrackInformation.track ∘ fun t => decodeTocEntry t (ctrlOf t) (lbaOf t))
        (List.range' firstT (lastT + 1 - firstT)) =
        List.range' firstT (lastT + 1 - firstT) := by
      have h2 := List.map_congr_left
        (l := List.range' firstT (lastT + 1 - firstT))
        (f := TrackInformation.track ∘ fun t => decodeTocEntry t (ctrlOf t) (lbaOf t))
        (g := id) (fun t _ => htrk t (ctrlOf t) (lbaOf t))
      rw [h2, List.map_id]
    rw [h1, htrk]
  · simp only [get_disc_information_model, List.getLast?_concat,
      Option.map_some]
    simp [decodeTocEntry, LEADOUT_TRACK]

/-- C7 witness at a three-track disc (tracks 1..3 plus the leadout). -/
theorem disc_information_shape_witness :
    (1 : Nat) ≤ 3 ∧
    (get_disc_information_model 1 3 (fun _ => 0)
        (fun _ => 0)).track_information.length = 4 ∧
    (get_disc_information_model 1 3 (fun _ => 0)
        (fun _ => 0)).track_information.map TrackInformation.track =
      [1, 2, 3, LEADOUT_TRACK] :=
  ⟨by decide,
   (disc_information_shape 1 3 (fun _ => 0) (fun _ => 0) (by decide)).1,
   (disc_information_shape 1 3 (fun _ => 0) (fun _ => 0) (by decide)).2.1⟩

/-! ## Claim C1 -/

/-- Restates the hashed string following the specification's wording
(spec section 4.2): header fields, then the gap-adjusted offset of each
audio track in disc order (`n` of them, expressed by `filter`/`map`),
then `"00000000"` repeated `99 - n` times.  Compared against the
source-translated `mbHashInput` in the refinement theorem below. -/
def mbSpecInput (d : DiscInformation) (lo : TrackInformation) : List Char :=
  pyHexNat 2 d.first_track ++ pyHexNat 2 d.last_track ++
  pyHexInt 8 (lo.start_frame + GAP_FRAMES) ++
  ((d.track_information.filter isAudioTrack).map
      (fun t => pyHexInt 8 (t.start_frame + GAP_FRAMES))).flatten ++
  (List.replicate (99 - (d.track_information.filter isAudioTrack).length)
      zeros8).flatten

/-- C1: For every `DiscInformation` whose last entry is the leadout, the
disc identifier is the SHA-1 digest of the spec-described ASCII string
(uppercase 2-digit hex track numbers, 8-digit hex gap-adjusted leadout
offset, one 8-digit hex gap-adjusted offset per audio track in disc
order, `"00000000"` repeated `99 - n` times), base64-encoded with
`'+'→'.'`, `'/'→'_'` and `'='→'-'`; and for the one-audio-track disc
with `first_track = last_track = 1`, `start_frame = 0` and leadout
start frame `D`, the hashed input is `"0101"`, `hex8 (D+150)`,
`hex8 150`, then `"00000000"` repeated 98 times. -/
theorem musicbrainz_id_algorithm (d : DiscInformation)
    (lo : TrackInformation) (D : Int)
    (h1 : d.track_information.getLast? = some lo)
    (h2 : lo.track_type = TrackType.leadout) :
    musicbrainz_id d =
      some (String.mk (mbEncode (sha1 (asciiBytes (mbSpecInput d lo))))) ∧
    mbHashInput
        (DiscInformation.mk 1 1
          [TrackInformation.mk 1 TrackType.audio 0 0,
           TrackInformation.mk LEADOUT_TRACK TrackType.leadout 0 D])
        (TrackInformation.mk LEADOUT_TRACK TrackType.leadout 0 D) =
      "0101".toList ++ pyHexInt 8 (D + 150) ++ pyHexInt 8 150 ++
      (List.replicate 98 zeros8).flatten := by
  constructor
  · have hinput : mbHashInput d lo = mbSpecInput d lo := by
      unfold mbHashInput mbSpecInput
      rw [flatten_audio_offsets, List.countP_eq_length_filter]
    simp only [musicbrainz_id, h1, h2, if_true, hinput]
  · have h0101 : pyHexNat 2 1 ++ pyHexNat 2 1 = "0101".toList := by decide
    have hgap : GAP_FRAMES = 150 := rfl
    simp only [mbHashInput, List.map_cons, List.map_nil, audioOffsetChars,
      List.flatten_cons, List.flatten_nil, List.countP_cons, List.countP_nil,
      isAudioTrack, hgap]
    norm_num
    rw [← List.append_assoc, ← List.append_assoc, h0101]
    simp [List.append_assoc]

/-- C1 witness at the one-audio-track disc with leadout start frame
95360. -/
theorem musicbrainz_id_algorithm_witness :
    (DiscInformation.mk 1 1
      [TrackInformation.mk 1 TrackType.audio 0 0,
       TrackInformation.mk LEADOUT_TRACK TrackType.leadout 0
         95360]).track_information.getLast? =
      some (TrackInformation.mk LEADOUT_TRACK TrackType.leadout 0 95360) ∧
    (TrackInformation.mk LEADOUT_TRACK TrackType.leadout 0
      95360).track_type = TrackType.leadout ∧
    musicbrainz_id
        (DiscInformation.mk 1 1
          [TrackInformation.mk 1 TrackType.audio 0 0,
           TrackInformation.mk LEADOUT_TRACK TrackType.leadout 0 95360]) =
      some (String.mk (mbEncode (sha1 (asciiBytes (mbSpecInput
        (DiscInformation.mk 1 1
          [TrackInformation.mk 1 TrackType.audio 0 0,
           TrackInformation.mk LEADOUT_TRACK TrackType.leadout 0 95360])
        (TrackInformation.mk LEADOUT_TRACK TrackType.leadout 0
          95360)))))) :=
  ⟨rfl, rfl,
   (musicbrainz_id_algorithm
     (DiscInformation.mk 1 1
       [TrackInformation.mk 1 TrackType.audio 0 0,
        TrackInformation.mk LEADOUT_TRACK TrackType.leadout 0 95360])
     (TrackInformation.mk LEADOUT_TRACK TrackType.leadout 0 95360)
     95360 rfl rfl).1⟩

/-! ## Claim C2 -/

/-- C2: For every `DiscInformation` accepted by the identifier function
(last entry is the leadout), the identifier is exactly 28 characters,
each drawn from `[A-Za-z0-9._-]`, and never contains `'='`. -/
theorem musicbrainz_id_output_format (d : DiscInformation)
    (lo : TrackInformation)
    (h1 : d.track_information.getLast? = some lo)
    (h2 : lo.track_type = TrackType.leadout) :
    ∃ s, musicbrainz_id d = some s ∧ s.length = 28 ∧
      (∀ c ∈ s.data, isIdChar c = true) ∧ '=' ∉ s.data := by
  refine ⟨String.mk (mbEncode (sha1 (asciiBytes (mbHashInput d lo)))),
    ?_, ?_, ?_, ?_⟩
  · simp [musicbrainz_id, h1, h2]
  · show (mbEncode (sha1 (asciiBytes (mbHashInput d lo)))).length = 28
    rw [mbEncode_length, sha1_length]
  · intro c hc
    exact (mbEncode_mem _ c hc).1
  · intro hmem
    exact (mbEncode_mem _ '=' hmem).2 rfl

/-- C2 witness at a concrete two-audio-track disc. -/
theorem musicbrainz_id_output_format_witness :
    (DiscInformation.mk 1 2
      [TrackInformation.mk 1 TrackType.audio 0 0,
       TrackInformation.mk 2 TrackType.audio 0 16000,
       TrackInformation.mk LEADOUT_TRACK TrackType.leadout 0
         95360]).track_information.getLast? =
      some (TrackInformation.mk LEADOUT_TRACK TrackType.leadout 0 95360) ∧
    ∃ s, musicbrainz_id
        (DiscInformation.mk 1 2
          [TrackInformation.mk 1 TrackType.audio 0 0,
           TrackInformation.mk 2 TrackType.audio 0 16000,
           TrackInformation.mk LEADOUT_TRACK TrackType.leadout 0 95360]) =
        some s ∧ s.length = 28 ∧
      (∀ c ∈ s.data, isIdChar c = true) ∧ '=' ∉ s.data :=
  ⟨rfl, musicbrainz_id_output_format
    (DiscInformation.mk 1 2
      [TrackInformation.mk 1 TrackType.audio 0 0,
       TrackInformation.mk 2 TrackType.audio 0 16000,
       TrackInformation.mk LEADOUT_TRACK TrackType.leadout 0 95360])
    (TrackInformation.mk LEADOUT_TRACK TrackType.leadout 0 95360) rfl rfl⟩

/-! ## Claim C3 -/

/-- The disc obtained from `d` by replacing the start frame of entry `i`
with `v`, all other fields unchanged. -/
def setStartFrame (d : DiscInformation) (i : Nat) (v : Int) :
    DiscInformation :=
  DiscInformation.mk d.first_track d.last_track
    (d.track_information.set i
      (TrackInformation.mk
        (d.track_information.getD i defaultTrack).track
        (d.track_information.getD i defaultTrack).track_type
        (d.track_information.getD i defaultTrack).flags
        v))

/-- The ASCII string the identifier computation feeds to SHA-1, under the
same contract as `musicbrainz_id` (`none` on malformed input). -/
def mbHashedString (d : DiscInformation) : Option (List Char) :=
  match d.track_information.getLast? with
  | none => none
  | some lo =>
    if lo.track_type = TrackType.leadout then some (mbHashInput d lo)
    else none

theorem mbHashInput_group (f lt : Nat) (lo : TrackInformation)
    (l : List TrackInformation) :
    mbHashInput (DiscInformation.mk f lt l) lo =
      (pyHexNat 2 f ++ pyHexNat 2 lt) ++
      pyHexInt 8 (lo.start_frame + GAP_FRAMES) ++
      ((l.map audioOffsetChars).flatten ++
       (List.replicate (99 - l.countP isAudioTrack) zeros8).flatten) := by
  simp [mbHashInput, List.append_assoc]

theorem mbHashInput_mid (f lt : Nat) (lo t : TrackInformation)
    (A B : List TrackInformation) :
    mbHashInput (DiscInformation.mk f lt (A ++ t :: B)) lo =
      ((pyHexNat 2 f ++ pyHexNat 2 lt ++
        pyHexInt 8 (lo.start_frame + GAP_FRAMES)) ++
       (A.map audioOffsetChars).flatten) ++
      audioOffsetChars t ++
      ((B.map audioOffsetChars).flatten ++
       (List.replicate (99 - (A ++ t :: B).countP isAudioTrack)
          zeros8).flatten) := by
  simp [mbHashInput, List.append_assoc]

/-- C3 counterexample: the identifier is not injective with respect to
start-frame changes of arbitrary tracks.  For the disc with one data
track (start frame 100) and the leadout at 5000, changing the data
track's start frame to 200 yields a different `DiscInformation` but the
identical identifier, because only audio-track offsets are hashed. -/
theorem musicbrainz_id_not_start_frame_injective :
    setStartFrame
        (DiscInformation.mk 1 1
          [TrackInformation.mk 1 TrackType.data 0 100,
           TrackInformation.mk LEADOUT_TRACK TrackType.leadout 0 5000])
        0 200 =
      DiscInformation.mk 1 1
        [TrackInformation.mk 1 TrackType.data 0 200,
         TrackInformation.mk LEADOUT_TRACK TrackType.leadout 0 5000] ∧
    DiscInformation.mk 1 1
        [TrackInformation.mk 1 TrackType.data 0 100,
         TrackInformation.mk LEADOUT_TRACK TrackType.leadout 0 5000] ≠
      DiscInformation.mk 1 1
        [TrackInformation.mk 1 TrackType.data 0 200,
         TrackInformation.mk LEADOUT_TRACK TrackType.leadout 0 5000] ∧
    musicbrainz_id
        (DiscInformation.mk 1 1
          [TrackInformation.mk 1 TrackType.data 0 100,
           TrackInformation.mk LEADOUT_TRACK TrackType.leadout 0 5000]) =
      musicbrainz_id
        (DiscInformation.mk 1 1
          [TrackInformation.mk 1 TrackType.data 0 200,
           TrackInformation.mk LEADOUT_TRACK TrackType.leadout 0 5000]) :=
  ⟨rfl, by decide, rfl⟩

/-- C3 (amended): the identifier function is deterministic, and changing
the start frame of an audio track, or of the final leadout entry, of a
well-formed disc changes the ASCII string fed to SHA-1.  (The original
claim over arbitrary tracks is refuted by the counterexample: data-track
start frames are not hashed.  At the identifier level the conclusion can
only be stated for the hashed input, since distinct 804-byte inputs
cannot be proven to yield distinct 20-byte SHA-1 digests.) -/
theorem mbHashedString_eq_of_getLast (d : DiscInformation)
    (lo : TrackInformation)
    (h : d.track_information.getLast? = some lo)
    (hlead : lo.track_type = TrackType.leadout) :
    mbHashedString d = some (mbHashInput d lo) := by
  unfold mbHashedString
  rw [h]
  simp [hlead]

theorem musicbrainz_id_start_frame_sensitivity
    (d : DiscInformation) (i : Nat) (v : Int) (lo : TrackInformation)
    (h1 : d.track_information.getLast? = some lo)
    (h2 : lo.track_type = TrackType.leadout)
    (hi : i < d.track_information.length)
    (hsel : (d.track_information.getD i defaultTrack).track_type =
        TrackType.audio ∨ i + 1 = d.track_information.length)
    (hv : v ≠ (d.track_information.getD i defaultTrack).start_frame) :
    (∀ d2, d2 = d → musicbrainz_id d2 = musicbrainz_id d) ∧
    mbHashedString (setStartFrame d i v) ≠ mbHashedString d := by
  refine ⟨fun d2 h => by rw [h], ?_⟩
  obtain ⟨f, lt, l⟩ := d
  replace h1 : l.getLast? = some lo := h1
  replace hi : i < l.length := hi
  replace hsel : (l.getD i defaultTrack).track_type = TrackType.audio ∨
      i + 1 = l.length := hsel
  replace hv : v ≠ (l.getD i defaultTrack).start_frame := hv
  obtain ⟨t, htdef⟩ : ∃ t, l.getD i defaultTrack = t := ⟨_, rfl⟩
  rw [htdef] at hsel hv
  have htget : l[i] = t := by
    rw [← htdef, List.getD_eq_getElem _ _ hi]
  have hAB0 : l = l.take i ++ t :: l.drop (i + 1) := by
    conv_lhs => rw [← List.take_append_drop i l]
    rw [List.drop_eq_getElem_cons hi, htget]
  obtain ⟨A, hA⟩ : ∃ A, l.take i = A := ⟨_, rfl⟩
  obtain ⟨B, hB⟩ : ∃ B, l.drop (i + 1) = B := ⟨_, rfl⟩
  rw [hA, hB] at hAB0
  have hset : l.set i (TrackInformation.mk t.track t.track_type t.flags v) =
      A ++ TrackInformation.mk t.track t.track_type t.flags v :: B := by
    rw [List.set_eq_take_append_cons_drop, if_pos hi, hA, hB]
  simp only [setStartFrame]
  rw [htdef, hset]
  rw [show DiscInformation.mk f lt l =
      DiscInformation.mk f lt (A ++ t :: B) from by rw [hAB0]]
  have hlast : (A ++ t :: B).getLast? = some lo := by
    rw [← hAB0]; exact h1
  rcases hsel with htype | hlen
  · -- the selected track is an audio track
    have hi1 : i + 1 < l.length := by
      rcases Nat.eq_or_lt_of_le (Nat.succ_le_of_lt hi) with he | hlt
      · exfalso
        have hc : l.getLast? = some t := by
          rw [List.getLast?_eq_getElem?]
          have hieq : l.length - 1 = i := by omega
          rw [hieq, List.getElem?_eq_getElem hi, htget]
        rw [h1] at hc
        injection hc with hc'
        rw [hc'] at h2
        exact absurd (h2.symm.trans htype) (by decide)
      · exact hlt
    have hlast' : (A ++ TrackInformation.mk t.track t.track_type t.flags v ::
        B).getLast? = some lo := by
      rw [← hset, List.getLast?_eq_getElem?, List.length_set,
        List.getElem?_set_ne (by omega : i ≠ l.length - 1),
        ← List.getLast?_eq_getElem?, h1]
    rw [mbHashedString_eq_of_getLast _ lo hlast' h2,
        mbHashedString_eq_of_getLast _ lo hlast h2]
    intro heq
    have heq2 := Option.some.inj heq
    rw [mbHashInput_mid, mbHashInput_mid] at heq2
    have hcount : (A ++ TrackInformation.mk t.track t.track_type t.flags v ::
        B).countP isAudioTrack = (A ++ t :: B).countP isAudioTrack := by
      simp [List.countP_append, List.countP_cons, isAudioTrack]
    rw [hcount] at heq2
    have hofft' : audioOffsetChars
        (TrackInformation.mk t.track t.track_type t.flags v) =
        pyHexInt 8 (v + GAP_FRAMES) := by
      simp [audioOffsetChars, htype]
    have hofft : audioOffsetChars t =
        pyHexInt 8 (t.start_frame + GAP_FRAMES) := by
      simp [audioOffsetChars, htype]
    rw [hofft', hofft] at heq2
    have hx := pyHexInt_inj 8 _ _ (List.append_cancel_left
      (List.append_cancel_right heq2))
    exact hv (by omega)
  · -- the selected track is the final leadout entry
    have hlo : lo = t := by
      have hc : l.getLast? = some t := by
        rw [List.getLast?_eq_getElem?]
        have hieq : l.length - 1 = i := by omega
        rw [hieq, List.getElem?_eq_getElem hi, htget]
      rw [h1] at hc
      exact Option.some.inj hc
    subst hlo
    have hBnil : B = [] := by
      rw [← hB]
      exact List.drop_eq_nil_of_le (by omega)
    subst hBnil
    have hlast' : (A ++ TrackInformation.mk lo.track lo.track_type lo.flags v ::
        ([] : List TrackInformation)).getLast? =
        some (TrackInformation.mk lo.track lo.track_type lo.flags v) :=
      List.getLast?_concat _
    rw [mbHashedString_eq_of_getLast _ _ hlast'
          (show (TrackInformation.mk lo.track lo.track_type lo.flags
            v).track_type = TrackType.leadout from h2),
        mbHashedString_eq_of_getLast _ lo hlast h2]
    intro heq
    have heq2 := Option.some.inj heq
    rw [mbHashInput_group, mbHashInput_group] at heq2
    have hR : (((A ++ TrackInformation.mk lo.track lo.track_type lo.flags v ::
          ([] : List TrackInformation)).map audioOffsetChars).flatten ++
        (List.replicate
          (99 - (A ++ TrackInformation.mk lo.track lo.track_type lo.flags v ::
            ([] : List TrackInformation)).countP isAudioTrack)
          zeros8).flatten) =
        (((A ++ lo :: ([] : List TrackInformation)).map
            audioOffsetChars).flatten ++
        (List.replicate
          (99 - (A ++ lo :: ([] : List TrackInformation)).countP isAudioTrack)
          zeros8).flatten) := by
      simp [audioOffsetChars, h2, List.countP_append, List.countP_cons,
        isAudioTrack]
    rw [hR] at heq2
    have hx := pyHexInt_inj 8 _ _ (List.append_cancel_left
      (List.append_cancel_right heq2))
    have hsf : (TrackInformation.mk lo.track lo.track_type lo.flags
        v).start_frame = v := rfl
    rw [hsf] at hx
    exact hv (by omega)

/-- C3 witness: changing the audio track's start frame from 0 to 7 on a
concrete well-formed disc changes the hashed string. -/
theorem musicbrainz_id_start_frame_sensitivity_witness :
    (7 : Int) ≠ ((DiscInformation.mk 1 1
        [TrackInformation.mk 1 TrackType.audio 0 0,
         TrackInformation.mk LEADOUT_TRACK TrackType.leadout 0
           5000]).track_information.getD 0 defaultTrack).start_frame ∧
    mbHashedString (setStartFrame
        (DiscInformation.mk 1 1
          [TrackInformation.mk 1 TrackType.audio 0 0,
           TrackInformation.mk LEADOUT_TRACK TrackType.leadout 0 5000])
        0 7) ≠
      mbHashedString
        (DiscInformation.mk 1 1
          [TrackInformation.mk 1 TrackType.audio 0 0,
           TrackInformation.mk LEADOUT_TRACK TrackType.leadout 0 5000]) :=
  ⟨by decide,
   (musicbrainz_id_start_frame_sensitivity
     (DiscInformation.mk 1 1
       [TrackInformation.mk 1 TrackType.audio 0 0,
        TrackInformation.mk LEADOUT_TRACK TrackType.leadout 0 5000])
     0 7 (TrackInformation.mk LEADOUT_TRACK TrackType.leadout 0 5000)
     rfl rfl (by decide) (Or.inl rfl) (by decide)).2⟩
